import Mathlib

/-!
Verification of the hierarchical timing-wheel task timeout monitor
(`sched::CTaskTimeoutMonitor`).  The class header is
`src/src/common/time_wheel/timeoutmonitor.h`; the implementation file
`timeoutmonitor.cpp` is in the sources as well, embedded after the
document separator of `src/src/python/mem_monitor/README.md`
(lines 215 to 691 of that file; line references below are into it).

The embedding is a sequential functional semantics of that code: every
member function is a pure function on an explicit `MonitorState`.
Modelling choices:
* timestamps are whole milliseconds (`Nat`); `Clock::now()` is the
  explicit `now` field, advanced by one `slotInterval` per worker-loop
  iteration;
* the per-record shared `cancelled` atomic (a
  `shared_ptr<atomic<bool>>` reachable from registry, slot and queue
  alike) is represented by membership of the record's allocation
  identifier `uid` in the `cancelledUids` set — `uid` models the
  `shared_ptr` allocation identity, and the `TimeoutTask` constructor's
  `cancelled := false` (header lines 49 to 56) corresponds to the fresh
  `uid` not being in the set;
* a callback invocation is recorded by appending the task to the
  `fired` log;
* `std::ceil` of the double quotient and `std::pow` compute
  integer-valued results exactly in range and are modelled as exact
  ceiling division and exponentiation on `Nat`;
* the source's Chinese log and error literals are rendered by the
  spec's English error labels (spec 4.1 and 7), which name the same
  five error cases in the same order.
-/

namespace TimeWheel

/-- Task record (`TimeoutTask`, header lines 41 to 57): immutable
`taskId`, `nodeId`, absolute `expireTime` in milliseconds.  `uid` is the
identity of the shared allocation, under which the shared `cancelled`
flag is looked up by every holder of a reference. -/
structure TimeoutTask where
  uid : Nat
  taskId : String
  nodeId : String
  expireTime : Nat
  deriving DecidableEq

/-- Whole-monitor state.  `wheels` is `numWheels` wheels of `wheelSize`
slots, each slot an unordered task list (`m_wheels`); `currentSlots` the
per-wheel pointer vector (`m_currentSlots`); `taskRegistry` the
id-to-record map (`m_taskRegistry`, an association list here);
`taskQueue` the callback-pool FIFO (`m_taskQueue`); `cancelledUids` the
set of record identities whose shared `cancelled` flag is true; `now`
the current time in milliseconds; `nextUid` the allocation counter;
`fired` the log of callback invocations. -/
structure MonitorState where
  wheelSize : Nat
  slotInterval : Nat
  numWheels : Nat
  wheels : List (List (List TimeoutTask))
  currentSlots : List Nat
  taskRegistry : List (String × TimeoutTask)
  taskQueue : List TimeoutTask
  running : Bool
  cancelledUids : List Nat
  now : Nat
  nextUid : Nat
  fired : List TimeoutTask
  deriving DecidableEq

/-- Ceiling division on naturals, `⌈a / b⌉` for `b > 0`; models the
`std::ceil((double)remainingMs / m_slotInterval.count())` of cpp
line 613. -/
def ceilDiv (a b : Nat) : Nat :=
  (a + b - 1) / b

/-- The wheel-selection loop of `calculateWheelPosition` (cpp lines 620
to 633).  Starting at wheel `k` with `fuel` wheels left to try, pick the
first wheel whose range `wheelSize ^ (k+1)` covers `remainingSlots` and
return its slot `(currentSlots[k] + remainingSlots / wheelSize ^ k) mod
wheelSize` (`slotOffset` is integer floor division, cpp line 628);
`none` when no wheel fits. -/
def findWheelAux (wheelSize : Nat) (currentSlots : List Nat)
    (remainingSlots : Nat) : Nat → Nat → Option (Nat × Nat)
  | _k, 0 => none
  | k, fuel + 1 =>
    if remainingSlots ≤ wheelSize ^ (k + 1) then
      some (k, (currentSlots.getD k 0 + remainingSlots / wheelSize ^ k) % wheelSize)
    else
      findWheelAux wheelSize currentSlots remainingSlots (k + 1) fuel

/-- `calculateWheelPosition` (cpp lines 594 to 637).  Both
immediately-expired branches (cpp lines 599 and 609) return
`(0, m_currentSlots[0] + 1)` WITHOUT a modulo — the latent bug spec
section 9 documents; it is reproduced here faithfully.  With
whole-millisecond timestamps the `remainingMs == 0` branch (cpp
line 607, a sub-millisecond remainder) cannot fire, but it is kept for
fidelity.  A future deadline is placed by the wheel-selection loop on
`remainingSlots = ⌈(expireTime − now) / slotInterval⌉`, with the
fallback `(numWheels − 1, wheelSize − 1)` when no wheel fits (cpp
line 636). -/
def calculateWheelPosition (s : MonitorState) (expireTime : Nat) : Nat × Nat :=
  if expireTime ≤ s.now then
    (0, s.currentSlots.getD 0 0 + 1)
  else if expireTime - s.now = 0 then
    (0, s.currentSlots.getD 0 0 + 1)
  else
    match findWheelAux s.wheelSize s.currentSlots
        (ceilDiv (expireTime - s.now) s.slotInterval) 0 s.numWheels with
    | some p => p
    | none => (s.numWheels - 1, s.wheelSize - 1)

/-- Task list held by slot `slot` of wheel `wheel`. -/
def slotTasks (wheels : List (List (List TimeoutTask))) (wheel slot : Nat) :
    List TimeoutTask :=
  (wheels.getD wheel []).getD slot []

/-- Replace the task list of slot `slot` of wheel `wheel`. -/
def setSlot (wheels : List (List (List TimeoutTask))) (wheel slot : Nat)
    (ts : List TimeoutTask) : List (List (List TimeoutTask)) :=
  wheels.set wheel ((wheels.getD wheel []).set slot ts)

/-- `addToSlot` (cpp lines 669 to 682): bounds-checked against the
actual wheel structure (`m_wheels.size()`, `m_wheels[wheel].size()`);
`push_back` appends the task reference at the end of the slot list.
Returns the code's `bool` together with the updated wheels. -/
def addToSlot (wheels : List (List (List TimeoutTask))) (wheel slot : Nat)
    (t : TimeoutTask) : Bool × List (List (List TimeoutTask)) :=
  if wheels.length ≤ wheel ∨ (wheels.getD wheel []).length ≤ slot then
    (false, wheels)
  else
    (true, setSlot wheels wheel slot (slotTasks wheels wheel slot ++ [t]))

/-- `addToTimeWheel` (cpp lines 639 to 667): fails for a task whose
shared `cancelled` flag is already set (cpp line 641); computes the
position and fails when it is outside the configured geometry (cpp
line 651); otherwise calls `addToSlot` — whose own result the code
ignores — and reports success.  `none` is the code's `false` return. -/
def addToTimeWheel (s : MonitorState) (t : TimeoutTask) : Option MonitorState :=
  if t.uid ∈ s.cancelledUids then none
  else if s.numWheels ≤ (calculateWheelPosition s t.expireTime).1 ∨
      s.wheelSize ≤ (calculateWheelPosition s t.expireTime).2 then none
  else
    some { s with
      wheels := (addToSlot s.wheels (calculateWheelPosition s t.expireTime).1
        (calculateWheelPosition s t.expireTime).2 t).2 }

/-- `getMaxTimeoutRange` (cpp lines 684 to 688):
`slotInterval × wheelSize ^ numWheels` milliseconds (`std::pow` modelled
as exact exponentiation). -/
def getMaxTimeoutRange (s : MonitorState) : Nat :=
  s.slotInterval * s.wheelSize ^ s.numWheels

/-- Erase the registry entry keyed `taskId` (the hash-map `erase` on the
association-list registry). -/
def eraseTask (reg : List (String × TimeoutTask)) (taskId : String) :
    List (String × TimeoutTask) :=
  reg.eraseP (fun p => p.1 == taskId)

/-- `addTaskMonitor` (cpp lines 311 to 361).  Rejects when not running,
on non-positive timeout, and on timeout above the maximum range; then —
as in the code — constructs the record (a fresh shared flag, here a
fresh `uid`) with `expireTime = now + timeout` BEFORE the registry test;
rejects a duplicate `taskId`; inserts into the registry and places the
task in the wheel; on placement failure erases the just-inserted
registry entry (cpp lines 350 to 355).  Error messages are the spec's
English labels for the source's literals. -/
def addTaskMonitor (s : MonitorState) (taskId nodeId : String)
    (timeout : Int) : (Bool × String) × MonitorState :=
  if s.running = false then
    ((false, "monitor not running"), s)
  else if timeout ≤ 0 then
    ((false, "timeout must be positive"), s)
  else if (getMaxTimeoutRange s : Int) < timeout then
    ((false, "timeout exceeds maximum range"), s)
  else if (s.taskRegistry.lookup taskId).isSome then
    ((false, "task already monitored"), { s with nextUid := s.nextUid + 1 })
  else
    match addToTimeWheel
        { s with
          taskRegistry :=
            (taskId, ⟨s.nextUid, taskId, nodeId, s.now + timeout.toNat⟩) :: s.taskRegistry,
          nextUid := s.nextUid + 1 }
        ⟨s.nextUid, taskId, nodeId, s.now + timeout.toNat⟩ with
    | some s2 => ((true, ""), s2)
    | none =>
      ((false, "failed to add task to time wheel"),
        { s with
          taskRegistry :=
            eraseTask
              ((taskId, ⟨s.nextUid, taskId, nodeId, s.now + timeout.toNat⟩) :: s.taskRegistry)
              taskId,
          nextUid := s.nextUid + 1 })

/-- `removeTaskMonitor` (cpp lines 363 to 385).  Absent id: return
false, no change.  Present id: erase the registry entry, store true
into the record's shared `cancelled` flag, return true; the task is not
extracted from its slot. -/
def removeTaskMonitor (s : MonitorState) (taskId : String) :
    Bool × MonitorState :=
  match s.taskRegistry.lookup taskId with
  | none => (false, s)
  | some t =>
    (true, { s with
      taskRegistry := eraseTask s.taskRegistry taskId,
      cancelledUids := t.uid :: s.cancelledUids })

/-- `getMonitoredTaskCount` (cpp lines 387 to 391): locks the registry
mutex and returns `m_taskRegistry.size()`; rendered as a value-state
pair to make the absence of mutation explicit. -/
def getMonitoredTaskCount (s : MonitorState) : Nat × MonitorState :=
  (s.taskRegistry.length, s)

/-- `isRunning` (inline in the header, lines 116 to 119):
`return m_running.load()`; rendered as a value-state pair to make the
absence of mutation explicit. -/
def isRunning (s : MonitorState) : Bool × MonitorState :=
  (s.running, s)

/-- `start` (cpp lines 249 to 266): the `m_running.exchange(true)` guard
makes a losing call a no-op; otherwise reset all current-slot pointers
to 0 (`m_currentSlots.assign(m_numWheels, 0)`) and spawn the workers. -/
def start (s : MonitorState) : MonitorState :=
  if s.running then s
  else { s with running := true, currentSlots := List.replicate s.numWheels 0 }

/-- Clear every slot list, keeping the wheel structure (the per-slot
`tasks.clear()` loop of `stop`, cpp lines 298 to 306). -/
def clearWheels (wheels : List (List (List TimeoutTask))) :
    List (List (List TimeoutTask)) :=
  wheels.map (fun wheel => wheel.map (fun _slot => []))

/-- Fresh wheel structure as the constructor's wheel set-up builds it
(cpp lines 393 to 404): `numWheels` wheels of `wheelSize` empty
slots. -/
def emptyWheels (numWheels wheelSize : Nat) : List (List (List TimeoutTask)) :=
  List.replicate numWheels (List.replicate wheelSize [])

/-- `stop` (cpp lines 268 to 309): the `m_running.exchange(false)` guard
returns early when already stopped; otherwise joins the workers, drains
the callback queue without dispatch, clears the registry, and clears
every slot. -/
def stop (s : MonitorState) : MonitorState :=
  if s.running = false then s
  else
    { s with
      running := false,
      taskQueue := [],
      taskRegistry := [],
      wheels := clearWheels s.wheels }

/-- The per-task body of the bottom-slot drain (`processCurrentSlot`,
cpp lines 488 to 544).  Skip a task whose shared `cancelled` flag is
set; move an expired task (`now >= expireTime`, equality counts) out of
the registry and into the callback queue; otherwise re-insert via
`addToTimeWheel`, and when that fails invoke the callback inline as the
forced-timeout safety net and erase the registry entry (cpp lines 527
to 542). -/
def processTask (s : MonitorState) (t : TimeoutTask) : MonitorState :=
  if t.uid ∈ s.cancelledUids then s
  else if t.expireTime ≤ s.now then
    { s with
      taskRegistry := eraseTask s.taskRegistry t.taskId,
      taskQueue := s.taskQueue ++ [t] }
  else
    match addToTimeWheel s t with
    | some s2 => s2
    | none =>
      { s with
        fired := s.fired ++ [t],
        taskRegistry := eraseTask s.taskRegistry t.taskId }

/-- `processCurrentSlot` (cpp lines 465 to 545): move the bottom wheel's
current slot list out under the slot lock and process each task in
order. -/
def processCurrentSlot (s : MonitorState) : MonitorState :=
  (slotTasks s.wheels 0 (s.currentSlots.getD 0 0)).foldl processTask
    { s with wheels := setSlot s.wheels 0 (s.currentSlots.getD 0 0) [] }

/-- The cascade's per-task re-insertion (cpp lines 575 to 582): a
cancelled task is dropped silently; otherwise `addToTimeWheel` is
called and its result is IGNORED — a failed re-insertion silently drops
the task from the wheel. -/
def cascadeReinsert (s : MonitorState) (t : TimeoutTask) : MonitorState :=
  if t.uid ∈ s.cancelledUids then s
  else
    match addToTimeWheel s t with
    | some s2 => s2
    | none => s

/-- The cascade of one higher wheel (`advanceTimeWheel_r` body for
`wheel != 0`, cpp lines 558 to 583): drain the slot now pointed to by
`currentSlots[k]` (the code applies a redundant extra `% wheelSize`,
cpp line 563) and re-insert each task via `cascadeReinsert`. -/
def cascadeWheelSlot (s : MonitorState) (k : Nat) : MonitorState :=
  (slotTasks s.wheels k (s.currentSlots.getD k 0 % s.wheelSize)).foldl
    cascadeReinsert
    { s with
      wheels := setSlot s.wheels k (s.currentSlots.getD k 0 % s.wheelSize) [] }

/-- One wheel's advance-then-cascade (`advanceTimeWheel_r`, cpp lines
554 to 583): increment `currentSlots[wheel]` modulo `wheelSize`; for a
wheel other than 0, immediately cascade its newly-pointed slot. -/
def advanceOneWheel (s : MonitorState) (wheel : Nat) : MonitorState :=
  if wheel ≠ 0 then
    cascadeWheelSlot
      { s with
        currentSlots :=
          s.currentSlots.set wheel ((s.currentSlots.getD wheel 0 + 1) % s.wheelSize) }
      wheel
  else
    { s with
      currentSlots :=
        s.currentSlots.set wheel ((s.currentSlots.getD wheel 0 + 1) % s.wheelSize) }

/-- `advanceTimeWheel_r` (cpp lines 547 to 592), fuelled for structural
recursion: stop beyond the last wheel; advance and cascade the current
wheel; recurse into the next wheel only if this one wrapped to 0 — the
interleaved inner-first recursion of the code. -/
def advanceTimeWheel_rAux : Nat → MonitorState → Nat → MonitorState
  | 0, s, _wheel => s
  | fuel + 1, s, wheel =>
    if s.numWheels ≤ wheel then s
    else if (advanceOneWheel s wheel).currentSlots.getD wheel 0 ≠ 0 then
      advanceOneWheel s wheel
    else
      advanceTimeWheel_rAux fuel (advanceOneWheel s wheel) (wheel + 1)

/-- One iteration of the tick worker (`workerLoop`, cpp lines 406 to
432): wait one slot interval (time advances by `slotInterval`), then
`advanceTimeWheel_r(0)`, then `processCurrentSlot()`. -/
def tick (s : MonitorState) : MonitorState :=
  processCurrentSlot
    (advanceTimeWheel_rAux (s.numWheels + 1)
      { s with now := s.now + s.slotInterval } 0)

/-- One callback-pool worker step (`timeoutLoop`, cpp lines 434 to 463):
pop the queue head; invoke the callback only if the shared `cancelled`
flag is still unset, else drop silently. -/
def dispatchOne (s : MonitorState) : MonitorState :=
  match s.taskQueue with
  | [] => s
  | t :: rest =>
    if t.uid ∈ s.cancelledUids then { s with taskQueue := rest }
    else { s with taskQueue := rest, fired := s.fired ++ [t] }

/-- Events of the sequential interleaving semantics: one tick-worker
iteration, one callback-worker dispatch, or a public API call. -/
inductive Event where
  | tick
  | dispatch
  | addTask (taskId nodeId : String) (timeout : Int)
  | removeTask (taskId : String)
  | stopMonitor
  | startMonitor
  deriving DecidableEq

/-- The step function of the interleaving semantics. -/
def step (s : MonitorState) : Event → MonitorState
  | Event.tick => tick s
  | Event.dispatch => dispatchOne s
  | Event.addTask taskId nodeId timeout => (addTaskMonitor s taskId nodeId timeout).2
  | Event.removeTask taskId => (removeTaskMonitor s taskId).2
  | Event.stopMonitor => stop s
  | Event.startMonitor => start s

/-- Run a sequence of events. -/
def run (s : MonitorState) : List Event → MonitorState
  | [] => s
  | e :: es => run (step s e) es

/-- Shared concrete monitor state for evaluating the definitions:
`wheelSize = 4`, `slotInterval = 100` ms, `numWheels = 2` (the geometry
of the end-to-end scenarios in spec section 8), freshly started. -/
def demoState : MonitorState :=
  { wheelSize := 4, slotInterval := 100, numWheels := 2,
    wheels := emptyWheels 2 4, currentSlots := [0, 0], taskRegistry := [],
    taskQueue := [], running := true, cancelledUids := [],
    now := 0, nextUid := 0, fired := [] }

/-- A concrete task record due at 300 ms. -/
def demoTask : TimeoutTask :=
  { uid := 0, taskId := "a", nodeId := "n", expireTime := 300 }

/-- `demoState` with `demoTask` registered and placed in wheel 0 slot 3. -/
def demoStateWithTask : MonitorState :=
  { demoState with
    taskRegistry := [("a", demoTask)],
    wheels := setSlot demoState.wheels 0 3 [demoTask],
    nextUid := 1 }

/-- `demoState` at a moment where the bottom pointer sits on the last
slot (`currentSlots[0] = wheelSize − 1 = 3`). -/
def demoStateWrap : MonitorState :=
  { demoState with currentSlots := [3, 0], now := 200 }

/-- A task already expired at `demoStateWrap.now = 200`. -/
def demoTaskExpired : TimeoutTask :=
  { uid := 5, taskId := "x", nodeId := "n", expireTime := 200 }

theorem findWheelAux_fit (wheelSize : Nat) (currentSlots : List Nat)
    (remainingSlots : Nat) :
    ∀ (fuel k0 k : Nat), k0 ≤ k → k < k0 + fuel →
      remainingSlots ≤ wheelSize ^ (k + 1) →
      (∀ j, k0 ≤ j → j < k → wheelSize ^ (j + 1) < remainingSlots) →
      findWheelAux wheelSize currentSlots remainingSlots k0 fuel =
        some (k, (currentSlots.getD k 0 + remainingSlots / wheelSize ^ k) % wheelSize) := by
  intro fuel
  induction fuel with
  | zero => intro k0 k h1 h2 _ _; omega
  | succ n ih =>
    intro k0 k h1 h2 hfit hmin
    by_cases hk : k0 = k
    · subst hk
      simp [findWheelAux, hfit]
    · have hlt : k0 < k := lt_of_le_of_ne h1 hk
      have hnofit : wheelSize ^ (k0 + 1) < remainingSlots :=
        hmin k0 le_rfl hlt
      have : ¬ remainingSlots ≤ wheelSize ^ (k0 + 1) := by omega
      simp only [findWheelAux, this, if_false]
      exact ih (k0 + 1) k hlt (by omega) hfit
        (fun j hj1 hj2 => hmin j (by omega) hj2)

theorem findWheelAux_nofit (wheelSize : Nat) (currentSlots : List Nat)
    (remainingSlots : Nat) :
    ∀ (fuel k0 : Nat),
      (∀ k, k0 ≤ k → k < k0 + fuel → wheelSize ^ (k + 1) < remainingSlots) →
      findWheelAux wheelSize currentSlots remainingSlots k0 fuel = none := by
  intro fuel
  induction fuel with
  | zero => intro k0 _; rfl
  | succ n ih =>
    intro k0 hall
    have hnofit : wheelSize ^ (k0 + 1) < remainingSlots :=
      hall k0 le_rfl (by omega)
    have : ¬ remainingSlots ≤ wheelSize ^ (k0 + 1) := by omega
    simp only [findWheelAux, this, if_false]
    exact ih (k0 + 1) (fun k hk1 hk2 => hall k (by omega) (by omega))

theorem findWheelAux_bounds (wheelSize : Nat) (currentSlots : List Nat)
    (remainingSlots : Nat) (hW : 0 < wheelSize) :
    ∀ (fuel k0 w sl : Nat),
      findWheelAux wheelSize currentSlots remainingSlots k0 fuel = some (w, sl) →
      w < k0 + fuel ∧ sl < wheelSize := by
  intro fuel
  induction fuel with
  | zero => intro k0 w sl h; cases h
  | succ n ih =>
    intro k0 w sl h
    simp only [findWheelAux] at h
    split at h
    · cases h
      exact ⟨by omega, Nat.mod_lt _ hW⟩
    · have := ih (k0 + 1) w sl h
      exact ⟨by omega, this.2⟩

/-- For a strictly future deadline, the placement calculator returns a
wheel index below `numWheels` and a slot index below `wheelSize` (given
both are nonzero).  For an already-expired deadline this FAILS: the
expired branch has no modulo. -/
theorem calculateWheelPosition_bounds (s : MonitorState) (e : Nat)
    (hpos : s.now < e) (hW : 0 < s.wheelSize) (hL : 0 < s.numWheels) :
    (calculateWheelPosition s e).1 < s.numWheels ∧
      (calculateWheelPosition s e).2 < s.wheelSize := by
  unfold calculateWheelPosition
  rw [if_neg (by omega), if_neg (by omega)]
  split
  · next p hp =>
    have := findWheelAux_bounds s.wheelSize s.currentSlots _ hW
      s.numWheels 0 p.1 p.2 (by simpa using hp)
    simpa using this
  · exact ⟨by omega, by omega⟩

/-- C1: for every task with positive remaining time, the placement
calculator computes `remainingSlots = ⌈remaining_ms / Δ⌉` and, for the
smallest `k < numWheels` with `remainingSlots ≤ wheelSize ^ (k+1)`,
returns wheel `k` and slot
`(currentSlots[k] + remainingSlots / wheelSize ^ k) mod wheelSize`
(integer floor division); when no wheel fits it returns
`(numWheels − 1, wheelSize − 1)`. -/
theorem calculateWheelPosition_future (s : MonitorState) (expireTime rs : Nat)
    (hpos : s.now < expireTime)
    (hrs : rs = ceilDiv (expireTime - s.now) s.slotInterval) :
    (∀ k, k < s.numWheels → rs ≤ s.wheelSize ^ (k + 1) →
      (∀ j, j < k → s.wheelSize ^ (j + 1) < rs) →
      calculateWheelPosition s expireTime =
        (k, (s.currentSlots.getD k 0 + rs / s.wheelSize ^ k) % s.wheelSize)) ∧
    ((∀ k, k < s.numWheels → s.wheelSize ^ (k + 1) < rs) →
      calculateWheelPosition s expireTime = (s.numWheels - 1, s.wheelSize - 1)) := by
  subst hrs
  constructor
  · intro k hk hfit hmin
    unfold calculateWheelPosition
    rw [if_neg (by omega), if_neg (by omega)]
    rw [findWheelAux_fit s.wheelSize s.currentSlots _ s.numWheels 0 k
      (Nat.zero_le k) (by omega) hfit (fun j _ hj => hmin j hj)]
  · intro hall
    unfold calculateWheelPosition
    rw [if_neg (by omega), if_neg (by omega)]
    rw [findWheelAux_nofit s.wheelSize s.currentSlots _ s.numWheels 0
      (fun k _ hk => hall k (by omega))]

/-- C1 witness: `wheelSize = 4`, `slotInterval = 100`, `numWheels = 2`,
pointers `[1, 2]`, deadline 450 ms ahead: `remainingSlots = 5`, the
first fitting wheel is `k = 1` (range 16), slot `(2 + 5 / 4) mod 4 =
3`. -/
theorem calculateWheelPosition_future_witness :
    (0 : Nat) < 450 ∧
    (5 : Nat) = ceilDiv (450 - 0) 100 ∧
    calculateWheelPosition
      { wheelSize := 4, slotInterval := 100, numWheels := 2,
        wheels := [], currentSlots := [1, 2], taskRegistry := [],
        taskQueue := [], running := true, cancelledUids := [],
        now := 0, nextUid := 0, fired := [] } 450 = (1, 3) := by
  refine ⟨by decide, by decide, ?_⟩
  have h := (calculateWheelPosition_future
    { wheelSize := 4, slotInterval := 100, numWheels := 2,
      wheels := [], currentSlots := [1, 2], taskRegistry := [],
      taskQueue := [], running := true, cancelledUids := [],
      now := 0, nextUid := 0, fired := [] } 450 5 (by decide) (by decide)).1
    1 (by decide) (by decide) (by intro j hj; interval_cases j; decide)
  simpa using h

/-- The expired branch of the real code, in general form: for
`expireTime ≤ now` the calculator returns `(0, currentSlots[0] + 1)`
with NO modulo. -/
theorem calculateWheelPosition_expired_nomod (s : MonitorState)
    (expireTime : Nat) (hle : expireTime ≤ s.now) :
    calculateWheelPosition s expireTime =
      (0, s.currentSlots.getD 0 0 + 1) := by
  unfold calculateWheelPosition
  rw [if_pos hle]

/-- C3 (refuting the claim on the code): at `currentSlots[0] = wheelSize
− 1 = 3`, the real `calculateWheelPosition` sends an expired task to
slot `3 + 1 = 4 = wheelSize` — NOT `(3 + 1) mod 4 = 0` as the claim
states, and not a value in `[0, wheelSize)`; the out-of-range position
then makes `addToTimeWheel` reject the placement.  This is the latent
bug spec section 9 documents and whose fix (the modulo) the spec
mandates. -/
theorem calculateWheelPosition_expired_bug :
    calculateWheelPosition demoStateWrap 200 = (0, 4) ∧
    calculateWheelPosition demoStateWrap 200 ≠ (0, (3 + 1) % 4) ∧
    ¬ (calculateWheelPosition demoStateWrap 200).2 < demoStateWrap.wheelSize ∧
    addToTimeWheel demoStateWrap demoTaskExpired = none := by
  refine ⟨?_, by decide, by decide, by decide⟩
  exact calculateWheelPosition_expired_nomod demoStateWrap 200 (by decide)

theorem lookup_eq_none_of_not_mem_keys (l : List (String × TimeoutTask))
    (k : String) (h : k ∉ l.map Prod.fst) : l.lookup k = none := by
  induction l with
  | nil => rfl
  | cons p tl ih =>
    simp only [List.map_cons, List.mem_cons] at h
    push_neg at h
    have hne : (k == p.1) = false := beq_eq_false_iff_ne.mpr h.1
    cases p with
    | mk a b =>
      simp only [List.lookup]
      rw [hne]
      exact ih h.2

theorem lookup_eraseTask_self (l : List (String × TimeoutTask)) (k : String)
    (h : (l.map Prod.fst).Nodup) : (eraseTask l k).lookup k = none := by
  induction l with
  | nil => rfl
  | cons p tl ih =>
    simp only [List.map_cons, List.nodup_cons] at h
    by_cases hk : p.1 = k
    · have hbeq : (p.1 == k) = true := beq_iff_eq.mpr hk
      unfold eraseTask
      rw [List.eraseP_cons, hbeq]
      simp only [cond_true]
      exact lookup_eq_none_of_not_mem_keys tl k (hk ▸ h.1)
    · have hbeq : (p.1 == k) = false := beq_eq_false_iff_ne.mpr hk
      unfold eraseTask
      rw [List.eraseP_cons, hbeq]
      simp only [cond_false]
      cases p with
      | mk a b =>
        simp only [List.lookup]
        have : (k == a) = false := beq_eq_false_iff_ne.mpr (fun he => hk he.symm)
        rw [this]
        exact ih h.2

theorem eraseTask_cons_self (l : List (String × TimeoutTask)) (k : String)
    (v : TimeoutTask) : eraseTask ((k, v) :: l) k = l := by
  unfold eraseTask
  rw [List.eraseP_cons]
  simp

theorem getD_mem_of_lt {α : Type} (l : List α) (i : Nat) (d : α)
    (h : i < l.length) : l.getD i d ∈ l := by
  induction l generalizing i with
  | nil => exact absurd h (Nat.not_lt_zero i)
  | cons a tl ih =>
    cases i with
    | zero => exact List.mem_cons_self _ _
    | succ i =>
      exact List.mem_cons_of_mem _ (ih i (by simpa using h))

theorem addToSlot_insert (wheels : List (List (List TimeoutTask)))
    (wheel slot : Nat) (t : TimeoutTask) (h1 : wheel < wheels.length)
    (h2 : slot < (wheels.getD wheel []).length) :
    addToSlot wheels wheel slot t =
      (true, setSlot wheels wheel slot (slotTasks wheels wheel slot ++ [t])) := by
  unfold addToSlot
  rw [if_neg (not_or.mpr ⟨not_le.mpr h1, not_le.mpr h2⟩)]

theorem addToTimeWheel_some_eq (s : MonitorState) (t : TimeoutTask)
    (s2 : MonitorState) (h : addToTimeWheel s t = some s2) :
    s2 = { s with
      wheels := (addToSlot s.wheels (calculateWheelPosition s t.expireTime).1
        (calculateWheelPosition s t.expireTime).2 t).2 } := by
  unfold addToTimeWheel at h
  split at h
  · cases h
  · split at h
    · cases h
    · exact (Option.some.inj h).symm

theorem addToTimeWheel_succeeds (s : MonitorState) (t : TimeoutTask)
    (hnc : t.uid ∉ s.cancelledUids) (hpos : s.now < t.expireTime)
    (hW : 0 < s.wheelSize) (hL : 0 < s.numWheels) :
    addToTimeWheel s t =
      some { s with
        wheels := (addToSlot s.wheels (calculateWheelPosition s t.expireTime).1
          (calculateWheelPosition s t.expireTime).2 t).2 } := by
  have hb := calculateWheelPosition_bounds s t.expireTime hpos hW hL
  unfold addToTimeWheel
  rw [if_neg hnc, if_neg (not_or.mpr ⟨not_le.mpr hb.1, not_le.mpr hb.2⟩)]

theorem addToTimeWheel_ne_none (s : MonitorState) (t : TimeoutTask)
    (hnc : t.uid ∉ s.cancelledUids) (hpos : s.now < t.expireTime)
    (hW : 0 < s.wheelSize) (hL : 0 < s.numWheels) :
    addToTimeWheel s t ≠ none := by
  rw [addToTimeWheel_succeeds s t hnc hpos hW hL]
  simp

/-- A successful `addTaskMonitor` registered the freshly constructed
record (whose shared `cancelled` flag lives under the fresh identifier
`nextUid`) and changed neither the cancelled set nor the fired log. -/
theorem addTaskMonitor_success (s : MonitorState) (taskId nodeId : String)
    (timeout : Int)
    (hsucc : (addTaskMonitor s taskId nodeId timeout).1.1 = true) :
    (addTaskMonitor s taskId nodeId timeout).2.taskRegistry =
      (taskId, ⟨s.nextUid, taskId, nodeId, s.now + timeout.toNat⟩) :: s.taskRegistry ∧
    (addTaskMonitor s taskId nodeId timeout).2.cancelledUids = s.cancelledUids ∧
    (addTaskMonitor s taskId nodeId timeout).2.fired = s.fired := by
  unfold addTaskMonitor at hsucc ⊢
  by_cases h1 : s.running = false
  · rw [if_pos h1] at hsucc; cases hsucc
  rw [if_neg h1] at hsucc ⊢
  by_cases h2 : timeout ≤ 0
  · rw [if_pos h2] at hsucc; cases hsucc
  rw [if_neg h2] at hsucc ⊢
  by_cases h3 : (getMaxTimeoutRange s : Int) < timeout
  · rw [if_pos h3] at hsucc; cases hsucc
  rw [if_neg h3] at hsucc ⊢
  by_cases h4 : (s.taskRegistry.lookup taskId).isSome = true
  · rw [if_pos h4] at hsucc; cases hsucc
  rw [if_neg h4] at hsucc ⊢
  split at hsucc
  · next s2 heq =>
    rw [addToTimeWheel_some_eq _ _ _ heq]
    exact ⟨rfl, rfl, rfl⟩
  · cases hsucc

/-- C5: while running (with nonzero geometry, a fresh uid counter and no
duplicate), `add` with `timeout = slotInterval × wheelSize ^ numWheels`
succeeds, and `add` with any strictly larger timeout fails with
"timeout exceeds maximum range": the range check is
boundary-inclusive. -/
theorem addTaskMonitor_range (s : MonitorState) (taskId nodeId : String)
    (hrun : s.running = true) (hW : 0 < s.wheelSize) (hL : 0 < s.numWheels)
    (hI : 0 < s.slotInterval)
    (hfresh : ∀ u ∈ s.cancelledUids, u < s.nextUid)
    (hdup : s.taskRegistry.lookup taskId = none) :
    (addTaskMonitor s taskId nodeId (getMaxTimeoutRange s : Int)).1.1 = true ∧
    (∀ timeout : Int, (getMaxTimeoutRange s : Int) < timeout →
      addTaskMonitor s taskId nodeId timeout =
        ((false, "timeout exceeds maximum range"), s)) := by
  have hmaxpos : 0 < getMaxTimeoutRange s :=
    Nat.mul_pos hI (pow_pos hW s.numWheels)
  have hrun2 : ¬ s.running = false := by simp [hrun]
  have hnc : s.nextUid ∉ s.cancelledUids :=
    fun hm => absurd (hfresh _ hm) (lt_irrefl _)
  have hexp : s.now < s.now + ((getMaxTimeoutRange s : Int)).toNat := by omega
  constructor
  · unfold addTaskMonitor
    rw [if_neg hrun2]
    rw [if_neg (by exact_mod_cast Nat.not_le.mpr hmaxpos)]
    rw [if_neg (lt_irrefl _)]
    rw [if_neg (by simp [hdup])]
    split
    next s2 heq => rfl
    next heq => exact absurd heq (addToTimeWheel_ne_none _ _ hnc hexp hW hL)
  · intro timeout ht
    have hpos : ¬ timeout ≤ 0 := by
      have : (0 : Int) < getMaxTimeoutRange s := by exact_mod_cast hmaxpos
      omega
    unfold addTaskMonitor
    rw [if_neg hrun2, if_neg hpos, if_pos ht]

/-- C5 witness: in `demoState` (`Δ = 100`, `W = 4`, `L = 2`, so
`Δ × W^L = 1600` ms), `add` at exactly 1600 ms succeeds and `add` at any
larger timeout, for instance 1601 ms, is rejected as out of range. -/
theorem addTaskMonitor_range_witness :
    demoState.running = true ∧ 0 < demoState.wheelSize ∧
    0 < demoState.numWheels ∧ 0 < demoState.slotInterval ∧
    (∀ u ∈ demoState.cancelledUids, u < demoState.nextUid) ∧
    demoState.taskRegistry.lookup "f" = none ∧
    ((addTaskMonitor demoState "f" "n" (getMaxTimeoutRange demoState : Int)).1.1 = true ∧
      (∀ timeout : Int, (getMaxTimeoutRange demoState : Int) < timeout →
        addTaskMonitor demoState "f" "n" timeout =
          ((false, "timeout exceeds maximum range"), demoState))) := by
  refine ⟨rfl, by decide, by decide, by decide, by decide, rfl, ?_⟩
  exact addTaskMonitor_range demoState "f" "n" rfl (by decide) (by decide)
    (by decide) (by decide) rfl

/-- C6: `add` is atomic with respect to the registry: a duplicate
`taskId` is rejected with "task already monitored" (the record
constructed before the test is discarded, so only the allocation counter
moves), and every failing `add` — any reason, the rolled-back placement
failure included — leaves the registry and hence `count()` unchanged. -/
theorem addTaskMonitor_atomic (s : MonitorState) (taskId nodeId : String)
    (timeout : Int) (hrun : s.running = true) (hpos : 0 < timeout)
    (hle : timeout ≤ (getMaxTimeoutRange s : Int)) :
    ((s.taskRegistry.lookup taskId).isSome = true →
      addTaskMonitor s taskId nodeId timeout =
        ((false, "task already monitored"), { s with nextUid := s.nextUid + 1 })) ∧
    (∀ (taskId2 nodeId2 : String) (timeout2 : Int),
      (addTaskMonitor s taskId2 nodeId2 timeout2).1.1 = false →
      (addTaskMonitor s taskId2 nodeId2 timeout2).2.taskRegistry = s.taskRegistry ∧
      (getMonitoredTaskCount (addTaskMonitor s taskId2 nodeId2 timeout2).2).1 =
        (getMonitoredTaskCount s).1) := by
  constructor
  · intro hdup
    unfold addTaskMonitor
    rw [if_neg (by simp [hrun])]
    rw [if_neg (by omega)]
    rw [if_neg (by omega)]
    rw [if_pos hdup]
  · intro taskId2 nodeId2 timeout2 hfail
    have hreg : (addTaskMonitor s taskId2 nodeId2 timeout2).2.taskRegistry =
        s.taskRegistry := by
      unfold addTaskMonitor at hfail ⊢
      by_cases h1 : s.running = false
      · rw [if_pos h1]
      rw [if_neg h1] at hfail ⊢
      by_cases h2 : timeout2 ≤ 0
      · rw [if_pos h2]
      rw [if_neg h2] at hfail ⊢
      by_cases h3 : (getMaxTimeoutRange s : Int) < timeout2
      · rw [if_pos h3]
      rw [if_neg h3] at hfail ⊢
      by_cases h4 : (s.taskRegistry.lookup taskId2).isSome = true
      · rw [if_pos h4]
      rw [if_neg h4] at hfail ⊢
      split at hfail
      · next s2 heq => cases hfail
      · exact eraseTask_cons_self _ _ _
    exact ⟨hreg, congrArg List.length hreg⟩

/-- C6 witness: after a successful `add("d")` in `demoState`, a second
`add("d")` fails with "task already monitored"; the rejected call and
every other failing `add` leave the registry untouched. -/
theorem addTaskMonitor_atomic_witness :
    (addTaskMonitor demoState "d" "n" 200).2.running = true ∧
    (0 : Int) < 200 ∧
    (200 : Int) ≤ (getMaxTimeoutRange (addTaskMonitor demoState "d" "n" 200).2 : Int) ∧
    (((addTaskMonitor demoState "d" "n" 200).2.taskRegistry.lookup "d").isSome = true →
      addTaskMonitor (addTaskMonitor demoState "d" "n" 200).2 "d" "n" 200 =
        ((false, "task already monitored"),
          { (addTaskMonitor demoState "d" "n" 200).2 with
            nextUid := (addTaskMonitor demoState "d" "n" 200).2.nextUid + 1 })) ∧
    (((addTaskMonitor demoState "d" "n" 200).2.taskRegistry.lookup "d").isSome = true) := by
  refine ⟨by decide, by decide, by decide, ?_, by decide⟩
  exact (addTaskMonitor_atomic (addTaskMonitor demoState "d" "n" 200).2
    "d" "n" 200 (by decide) (by decide) (by decide)).1

/-- C7: `remove` of an absent id returns false and changes nothing (so a
second `remove` of the same id returns false); `remove` of a present id
erases the registry entry, sets the record's shared `cancelled` flag,
returns true, and leaves the wheels — hence the task's slot —
untouched. -/
theorem removeTaskMonitor_spec (s : MonitorState) (taskId : String)
    (hnodup : (s.taskRegistry.map Prod.fst).Nodup) :
    (s.taskRegistry.lookup taskId = none →
      removeTaskMonitor s taskId = (false, s)) ∧
    (∀ t, s.taskRegistry.lookup taskId = some t →
      removeTaskMonitor s taskId =
        (true, { s with
          taskRegistry := eraseTask s.taskRegistry taskId,
          cancelledUids := t.uid :: s.cancelledUids }) ∧
      (removeTaskMonitor s taskId).2.wheels = s.wheels ∧
      (removeTaskMonitor (removeTaskMonitor s taskId).2 taskId).1 = false) := by
  constructor
  · intro h
    unfold removeTaskMonitor
    rw [h]
  · intro t h
    have h1 : removeTaskMonitor s taskId =
        (true, { s with
          taskRegistry := eraseTask s.taskRegistry taskId,
          cancelledUids := t.uid :: s.cancelledUids }) := by
      unfold removeTaskMonitor
      rw [h]
    refine ⟨h1, by rw [h1], ?_⟩
    rw [h1]
    unfold removeTaskMonitor
    rw [show ({ s with
      taskRegistry := eraseTask s.taskRegistry taskId,
      cancelledUids := t.uid :: s.cancelledUids } :
        MonitorState).taskRegistry.lookup taskId = none from
      lookup_eraseTask_self s.taskRegistry taskId hnodup]

/-- C7 witness: in `demoStateWithTask` (registry holds `"a"`), removing a
missing id returns false unchanged, removing `"a"` returns true, sets the
flag, keeps the wheels, and a repeated remove returns false. -/
theorem removeTaskMonitor_spec_witness :
    (demoStateWithTask.taskRegistry.map Prod.fst).Nodup ∧
    ((demoStateWithTask.taskRegistry.lookup "zz" = none →
      removeTaskMonitor demoStateWithTask "zz" = (false, demoStateWithTask)) ∧
    (∀ t, demoStateWithTask.taskRegistry.lookup "zz" = some t →
      removeTaskMonitor demoStateWithTask "zz" =
        (true, { demoStateWithTask with
          taskRegistry := eraseTask demoStateWithTask.taskRegistry "zz",
          cancelledUids := t.uid :: demoStateWithTask.cancelledUids }) ∧
      (removeTaskMonitor demoStateWithTask "zz").2.wheels = demoStateWithTask.wheels ∧
      (removeTaskMonitor (removeTaskMonitor demoStateWithTask "zz").2 "zz").1 = false)) ∧
    ((removeTaskMonitor demoStateWithTask "a").1 = true ∧
      (removeTaskMonitor (removeTaskMonitor demoStateWithTask "a").2 "a").1 = false) := by
  refine ⟨by decide, removeTaskMonitor_spec demoStateWithTask "zz" (by decide), ?_⟩
  have h := ((removeTaskMonitor_spec demoStateWithTask "a" (by decide)).2
    demoTask (by decide))
  exact ⟨by rw [h.1], h.2.2⟩

theorem getD_map_nil (l : List (List TimeoutTask)) :
    ∀ sl : Nat, (l.map (fun _slot => ([] : List TimeoutTask))).getD sl [] = [] := by
  induction l with
  | nil => intro sl; rfl
  | cons a tl ih =>
    intro sl
    cases sl with
    | zero => rfl
    | succ sl => exact ih sl

theorem slotTasks_clearWheels (wheels : List (List (List TimeoutTask))) :
    ∀ wheel slot : Nat, slotTasks (clearWheels wheels) wheel slot = [] := by
  induction wheels with
  | nil => intro wheel slot; rfl
  | cons wh ws ih =>
    intro wheel slot
    cases wheel with
    | zero => exact getD_map_nil wh slot
    | succ wheel => exact ih wheel slot

/-- A monitor that is not running is left entirely unchanged by `stop`
(the `exchange` guard's early return). -/
theorem stop_of_not_running (s : MonitorState) (h : s.running = false) :
    stop s = s := by
  unfold stop
  rw [if_pos h]

/-- C8: stopping a running monitor clears the registry and all slots so
`count()` returns 0 and the queue is drained; afterwards `running()` is
false, `stop` is idempotent (the repeated call early-returns), every
subsequent `add` fails with "monitor not running", and `start` makes
the monitor run again. -/
theorem stop_spec (s : MonitorState) (hrun : s.running = true) :
    (stop s).running = false ∧
    (getMonitoredTaskCount (stop s)).1 = 0 ∧
    (∀ wheel slot, slotTasks (stop s).wheels wheel slot = []) ∧
    (stop s).taskQueue = [] ∧
    stop (stop s) = stop s ∧
    (∀ (taskId nodeId : String) (timeout : Int),
      addTaskMonitor (stop s) taskId nodeId timeout =
        ((false, "monitor not running"), stop s)) ∧
    (start (stop s)).running = true := by
  have hstop : stop s =
      { s with
        running := false,
        taskQueue := [],
        taskRegistry := [],
        wheels := clearWheels s.wheels } := by
    unfold stop
    rw [if_neg (by simp [hrun])]
  have hrun2 : (stop s).running = false := by rw [hstop]
  refine ⟨hrun2, by rw [hstop]; rfl, ?_, by rw [hstop], stop_of_not_running _ hrun2,
    ?_, ?_⟩
  · intro wheel slot
    rw [hstop]
    exact slotTasks_clearWheels s.wheels wheel slot
  · intro taskId nodeId timeout
    unfold addTaskMonitor
    rw [if_pos hrun2]
  · unfold start
    rw [if_neg (by rw [hrun2]; simp)]

/-- C8 witness: stopping the running `demoState` yields a stopped, empty
monitor on which `add` fails until `start`. -/
theorem stop_spec_witness :
    demoState.running = true ∧
    ((stop demoState).running = false ∧
      (getMonitoredTaskCount (stop demoState)).1 = 0 ∧
      (∀ wheel slot, slotTasks (stop demoState).wheels wheel slot = []) ∧
      (stop demoState).taskQueue = [] ∧
      stop (stop demoState) = stop demoState ∧
      (∀ (taskId nodeId : String) (timeout : Int),
        addTaskMonitor (stop demoState) taskId nodeId timeout =
          ((false, "monitor not running"), stop demoState)) ∧
      (start (stop demoState)).running = true) :=
  ⟨rfl, stop_spec demoState rfl⟩

/-- C10: the query operations `getMonitoredTaskCount` and `isRunning`
return the registry size and the running flag and leave the whole
monitor state unchanged. -/
theorem queries_pure (s : MonitorState) :
    (getMonitoredTaskCount s).1 = s.taskRegistry.length ∧
    (getMonitoredTaskCount s).2 = s ∧
    (isRunning s).1 = s.running ∧
    (isRunning s).2 = s :=
  ⟨rfl, rfl, rfl, rfl⟩

/-- C2: the bottom-slot drain folds the per-task handler `processTask`
over the moved-out slot list, and for every task (in a monitor with
nonzero geometry and a well-formed wheel structure): a cancelled task is
skipped (no fire, no re-insert, no state change); a non-cancelled task
with `now ≥ expireTime` (equality counts as expired) is removed from the
registry and enqueued to the callback pool; a non-cancelled task not yet
due is re-inserted at the position the placement calculator chooses, and
is neither enqueued nor fired. -/
theorem processCurrentSlot_spec (s : MonitorState) (t : TimeoutTask)
    (hW : 0 < s.wheelSize) (hL : 0 < s.numWheels)
    (hwf1 : s.wheels.length = s.numWheels)
    (hwf2 : ∀ w ∈ s.wheels, w.length = s.wheelSize) :
    processCurrentSlot s =
      (slotTasks s.wheels 0 (s.currentSlots.getD 0 0)).foldl processTask
        { s with wheels := setSlot s.wheels 0 (s.currentSlots.getD 0 0) [] } ∧
    (t.uid ∈ s.cancelledUids → processTask s t = s) ∧
    (t.uid ∉ s.cancelledUids → t.expireTime ≤ s.now →
      processTask s t =
        { s with
          taskRegistry := eraseTask s.taskRegistry t.taskId,
          taskQueue := s.taskQueue ++ [t] }) ∧
    (t.uid ∉ s.cancelledUids → s.now < t.expireTime →
      processTask s t =
        { s with
          wheels := setSlot s.wheels (calculateWheelPosition s t.expireTime).1
            (calculateWheelPosition s t.expireTime).2
            (slotTasks s.wheels (calculateWheelPosition s t.expireTime).1
              (calculateWheelPosition s t.expireTime).2 ++ [t]) } ∧
      (processTask s t).taskQueue = s.taskQueue ∧
      (processTask s t).fired = s.fired) := by
  refine ⟨rfl, ?_, ?_, ?_⟩
  · intro hc
    unfold processTask
    rw [if_pos hc]
  · intro hc hexp
    unfold processTask
    rw [if_neg hc, if_pos hexp]
  · intro hc hnot
    have hb := calculateWheelPosition_bounds s t.expireTime hnot hW hL
    have hw1 : (calculateWheelPosition s t.expireTime).1 < s.wheels.length := by
      rw [hwf1]; exact hb.1
    have hw2 : (calculateWheelPosition s t.expireTime).2 <
        (s.wheels.getD (calculateWheelPosition s t.expireTime).1 []).length := by
      rw [hwf2 _ (getD_mem_of_lt _ _ _ hw1)]; exact hb.2
    have hre : processTask s t =
        { s with
          wheels := setSlot s.wheels (calculateWheelPosition s t.expireTime).1
            (calculateWheelPosition s t.expireTime).2
            (slotTasks s.wheels (calculateWheelPosition s t.expireTime).1
              (calculateWheelPosition s t.expireTime).2 ++ [t]) } := by
      unfold processTask
      rw [if_neg hc, if_neg (by omega)]
      rw [addToTimeWheel_succeeds s t hc hnot hW hL]
      rw [addToSlot_insert s.wheels _ _ t hw1 hw2]
    exact ⟨hre, by rw [hre], by rw [hre]⟩

/-- C2 witness: in `demoStateWithTask` at `now = 0` with `demoTask`
(due at 300 ms) in wheel 0 slot 3: not yet due and not cancelled, the
drain handler re-inserts it at the calculator's position and does not
enqueue or fire it. -/
theorem processCurrentSlot_spec_witness :
    0 < demoStateWithTask.wheelSize ∧ 0 < demoStateWithTask.numWheels ∧
    demoStateWithTask.wheels.length = demoStateWithTask.numWheels ∧
    (∀ w ∈ demoStateWithTask.wheels, w.length = demoStateWithTask.wheelSize) ∧
    (demoTask.uid ∉ demoStateWithTask.cancelledUids ∧
      demoStateWithTask.now < demoTask.expireTime ∧
      (processTask demoStateWithTask demoTask).taskQueue =
        demoStateWithTask.taskQueue ∧
      (processTask demoStateWithTask demoTask).fired =
        demoStateWithTask.fired) := by
  refine ⟨by decide, by decide, by decide, by decide, by decide, by decide, ?_, ?_⟩
  · exact (((processCurrentSlot_spec demoStateWithTask demoTask (by decide)
      (by decide) (by decide) (by decide)).2.2.2) (by decide) (by decide)).2.1
  · exact (((processCurrentSlot_spec demoStateWithTask demoTask (by decide)
      (by decide) (by decide) (by decide)).2.2.2) (by decide) (by decide)).2.2

/-- A callback worker that pops a non-cancelled task invokes its
callback: the fired log grows by exactly that task. -/
theorem dispatchOne_fires (s : MonitorState) (t : TimeoutTask)
    (rest : List TimeoutTask) (hq : s.taskQueue = t :: rest)
    (hnc : t.uid ∉ s.cancelledUids) :
    (dispatchOne s).fired = s.fired ++ [t] := by
  cases s with
  | mk wS sI nW wh cs reg q run canc timeNow nxt fd =>
    simp only at hq hnc
    subst hq
    dsimp only [dispatchOne]
    rw [if_neg hnc]

/-- C9: every task record is constructed with its shared `cancelled`
flag false (header lines 49 to 56): after a successful `add` (given the
allocation-freshness invariant of the uid counter), the registered
record's flag is not set, so the callback-pool path dispatches rather
than drops it. -/
theorem addTask_fresh_not_cancelled (s : MonitorState)
    (taskId nodeId : String) (timeout : Int)
    (hinv : ∀ u ∈ s.cancelledUids, u < s.nextUid)
    (hsucc : (addTaskMonitor s taskId nodeId timeout).1.1 = true) :
    ∃ tk, (addTaskMonitor s taskId nodeId timeout).2.taskRegistry.lookup taskId =
        some tk ∧
      tk.uid ∉ (addTaskMonitor s taskId nodeId timeout).2.cancelledUids ∧
      ∀ rest,
        (dispatchOne
          { (addTaskMonitor s taskId nodeId timeout).2 with
            taskQueue := tk :: rest }).fired =
          (addTaskMonitor s taskId nodeId timeout).2.fired ++ [tk] := by
  obtain ⟨hreg, hcanc, _hfired⟩ :=
    addTaskMonitor_success s taskId nodeId timeout hsucc
  refine ⟨⟨s.nextUid, taskId, nodeId, s.now + timeout.toNat⟩, ?_, ?_, ?_⟩
  · rw [hreg]
    simp [List.lookup]
  · rw [hcanc]
    intro hmem
    exact absurd (hinv _ hmem) (lt_irrefl _)
  · intro rest
    have hnc : (⟨s.nextUid, taskId, nodeId, s.now + timeout.toNat⟩ :
        TimeoutTask).uid ∉
        ({ (addTaskMonitor s taskId nodeId timeout).2 with
          taskQueue :=
            (⟨s.nextUid, taskId, nodeId, s.now + timeout.toNat⟩ :
              TimeoutTask) :: rest } : MonitorState).cancelledUids := by
      show s.nextUid ∉ (addTaskMonitor s taskId nodeId timeout).2.cancelledUids
      rw [hcanc]
      intro hmem
      exact absurd (hinv _ hmem) (lt_irrefl _)
    exact dispatchOne_fires _ _ rest rfl hnc

/-- C9 witness: a fresh `add("a")` into `demoState` yields a registered
record whose cancelled flag is unset and which the callback worker
dispatches rather than drops. -/
theorem addTask_fresh_not_cancelled_witness :
    (∀ u ∈ demoState.cancelledUids, u < demoState.nextUid) ∧
    (addTaskMonitor demoState "a" "n" 250).1.1 = true ∧
    ∃ tk, (addTaskMonitor demoState "a" "n" 250).2.taskRegistry.lookup "a" =
        some tk ∧
      tk.uid ∉ (addTaskMonitor demoState "a" "n" 250).2.cancelledUids ∧
      ∀ rest,
        (dispatchOne
          { (addTaskMonitor demoState "a" "n" 250).2 with
            taskQueue := tk :: rest }).fired =
          (addTaskMonitor demoState "a" "n" 250).2.fired ++ [tk] := by
  refine ⟨by decide, by decide, ?_⟩
  exact addTask_fresh_not_cancelled demoState "a" "n" 250 (by decide) (by decide)

theorem processTask_cancelledUids (s : MonitorState) (t : TimeoutTask) :
    (processTask s t).cancelledUids = s.cancelledUids := by
  unfold processTask
  split
  · rfl
  · split
    · rfl
    · split
      · next s2 heq => rw [addToTimeWheel_some_eq _ _ _ heq]
      · rfl

theorem processTask_fired_sub (s : MonitorState) (t u : TimeoutTask)
    (hu : u ∈ (processTask s t).fired) :
    u ∈ s.fired ∨ (u = t ∧ t.uid ∉ s.cancelledUids) := by
  unfold processTask at hu
  split at hu
  · exact Or.inl hu
  · next hc =>
    split at hu
    · exact Or.inl hu
    · split at hu
      · next s2 heq =>
        rw [addToTimeWheel_some_eq _ _ _ heq] at hu
        exact Or.inl hu
      · rcases List.mem_append.mp hu with h | h
        · exact Or.inl h
        · exact Or.inr ⟨List.mem_singleton.mp h, hc⟩

theorem foldl_processTask_cancelledUids (ts : List TimeoutTask) :
    ∀ s : MonitorState,
      (ts.foldl processTask s).cancelledUids = s.cancelledUids := by
  induction ts with
  | nil => intro s; rfl
  | cons t ts ih =>
    intro s
    rw [List.foldl_cons, ih, processTask_cancelledUids]

theorem foldl_processTask_fired_sub (ts : List TimeoutTask) :
    ∀ (s : MonitorState) (u : TimeoutTask),
      u ∈ (ts.foldl processTask s).fired →
      u ∈ s.fired ∨ (u ∈ ts ∧ u.uid ∉ s.cancelledUids) := by
  induction ts with
  | nil => intro s u hu; exact Or.inl hu
  | cons t ts ih =>
    intro s u hu
    rw [List.foldl_cons] at hu
    rcases ih _ u hu with h | h
    · rcases processTask_fired_sub s t u h with h2 | h2
      · exact Or.inl h2
      · rcases h2 with ⟨rfl, hnc⟩
        exact Or.inr ⟨List.mem_cons_self _ _, hnc⟩
    · rw [processTask_cancelledUids] at h
      exact Or.inr ⟨List.mem_cons_of_mem t h.1, h.2⟩

theorem cascadeReinsert_cancelledUids (s : MonitorState) (t : TimeoutTask) :
    (cascadeReinsert s t).cancelledUids = s.cancelledUids := by
  unfold cascadeReinsert
  split
  · rfl
  · split
    · next s2 heq => rw [addToTimeWheel_some_eq _ _ _ heq]
    · rfl

theorem cascadeReinsert_fired (s : MonitorState) (t : TimeoutTask) :
    (cascadeReinsert s t).fired = s.fired := by
  unfold cascadeReinsert
  split
  · rfl
  · split
    · next s2 heq => rw [addToTimeWheel_some_eq _ _ _ heq]
    · rfl

theorem foldl_cascadeReinsert_cancelledUids (ts : List TimeoutTask) :
    ∀ s : MonitorState,
      (ts.foldl cascadeReinsert s).cancelledUids = s.cancelledUids := by
  induction ts with
  | nil => intro s; rfl
  | cons t ts ih =>
    intro s
    rw [List.foldl_cons, ih, cascadeReinsert_cancelledUids]

theorem foldl_cascadeReinsert_fired (ts : List TimeoutTask) :
    ∀ s : MonitorState, (ts.foldl cascadeReinsert s).fired = s.fired := by
  induction ts with
  | nil => intro s; rfl
  | cons t ts ih =>
    intro s
    rw [List.foldl_cons, ih, cascadeReinsert_fired]

theorem cascadeWheelSlot_cancelledUids (s : MonitorState) (k : Nat) :
    (cascadeWheelSlot s k).cancelledUids = s.cancelledUids := by
  unfold cascadeWheelSlot
  rw [foldl_cascadeReinsert_cancelledUids]

theorem cascadeWheelSlot_fired (s : MonitorState) (k : Nat) :
    (cascadeWheelSlot s k).fired = s.fired := by
  unfold cascadeWheelSlot
  rw [foldl_cascadeReinsert_fired]

theorem advanceOneWheel_preserves (s : MonitorState) (wheel : Nat) :
    (advanceOneWheel s wheel).cancelledUids = s.cancelledUids ∧
    (advanceOneWheel s wheel).fired = s.fired := by
  unfold advanceOneWheel
  split
  · exact ⟨by rw [cascadeWheelSlot_cancelledUids], by rw [cascadeWheelSlot_fired]⟩
  · exact ⟨rfl, rfl⟩

theorem advanceTimeWheel_rAux_preserves :
    ∀ (fuel : Nat) (s : MonitorState) (wheel : Nat),
      (advanceTimeWheel_rAux fuel s wheel).cancelledUids = s.cancelledUids ∧
      (advanceTimeWheel_rAux fuel s wheel).fired = s.fired := by
  intro fuel
  induction fuel with
  | zero => intro s wheel; exact ⟨rfl, rfl⟩
  | succ n ih =>
    intro s wheel
    unfold advanceTimeWheel_rAux
    split
    · exact ⟨rfl, rfl⟩
    · split
      · exact advanceOneWheel_preserves s wheel
      · have h := ih (advanceOneWheel s wheel) (wheel + 1)
        have h2 := advanceOneWheel_preserves s wheel
        exact ⟨h.1.trans h2.1, h.2.trans h2.2⟩

theorem processCurrentSlot_cancelledUids (s : MonitorState) :
    (processCurrentSlot s).cancelledUids = s.cancelledUids := by
  unfold processCurrentSlot
  rw [foldl_processTask_cancelledUids]

theorem processCurrentSlot_fired_sub (s : MonitorState) (u : TimeoutTask)
    (hu : u ∈ (processCurrentSlot s).fired) :
    u ∈ s.fired ∨ u.uid ∉ s.cancelledUids := by
  unfold processCurrentSlot at hu
  rcases foldl_processTask_fired_sub _ _ u hu with h | h
  · exact Or.inl h
  · exact Or.inr h.2

theorem tick_cancelledUids (s : MonitorState) :
    (tick s).cancelledUids = s.cancelledUids := by
  unfold tick
  rw [processCurrentSlot_cancelledUids, (advanceTimeWheel_rAux_preserves _ _ _).1]

theorem tick_fired_sub (s : MonitorState) (u : TimeoutTask)
    (hu : u ∈ (tick s).fired) : u ∈ s.fired ∨ u.uid ∉ s.cancelledUids := by
  unfold tick at hu
  rcases processCurrentSlot_fired_sub _ u hu with h | h
  · rw [(advanceTimeWheel_rAux_preserves _ _ _).2] at h
    exact Or.inl h
  · rw [(advanceTimeWheel_rAux_preserves _ _ _).1] at h
    exact Or.inr h

theorem addTaskMonitor_preserves (s : MonitorState) (taskId nodeId : String)
    (timeout : Int) :
    (addTaskMonitor s taskId nodeId timeout).2.cancelledUids = s.cancelledUids ∧
    (addTaskMonitor s taskId nodeId timeout).2.fired = s.fired := by
  unfold addTaskMonitor
  split
  · exact ⟨rfl, rfl⟩
  split
  · exact ⟨rfl, rfl⟩
  split
  · exact ⟨rfl, rfl⟩
  split
  · exact ⟨rfl, rfl⟩
  split
  · next s2 heq =>
    rw [addToTimeWheel_some_eq _ _ _ heq]
    exact ⟨rfl, rfl⟩
  · exact ⟨rfl, rfl⟩

theorem removeTaskMonitor_preserves (s : MonitorState) (taskId : String) :
    s.cancelledUids ⊆ (removeTaskMonitor s taskId).2.cancelledUids ∧
    (removeTaskMonitor s taskId).2.fired = s.fired := by
  unfold removeTaskMonitor
  split
  · exact ⟨fun x hx => hx, rfl⟩
  · exact ⟨fun x hx => List.mem_cons_of_mem _ hx, rfl⟩

theorem dispatchOne_cancelledUids (s : MonitorState) :
    (dispatchOne s).cancelledUids = s.cancelledUids := by
  unfold dispatchOne
  split
  · rfl
  · split
    · rfl
    · rfl

theorem dispatchOne_fired_sub (s : MonitorState) (u : TimeoutTask)
    (hu : u ∈ (dispatchOne s).fired) :
    u ∈ s.fired ∨ u.uid ∉ s.cancelledUids := by
  unfold dispatchOne at hu
  split at hu
  · exact Or.inl hu
  · split at hu
    · exact Or.inl hu
    · next hc =>
      rcases List.mem_append.mp hu with h | h
      · exact Or.inl h
      · right
        rw [List.mem_singleton.mp h]
        exact hc

theorem stop_preserves (s : MonitorState) :
    (stop s).cancelledUids = s.cancelledUids ∧ (stop s).fired = s.fired := by
  unfold stop
  split
  · exact ⟨rfl, rfl⟩
  · exact ⟨rfl, rfl⟩

theorem start_preserves (s : MonitorState) :
    (start s).cancelledUids = s.cancelledUids ∧ (start s).fired = s.fired := by
  unfold start
  split
  · exact ⟨rfl, rfl⟩
  · exact ⟨rfl, rfl⟩

/-- A cancelled flag, once set, survives every step of the semantics. -/
theorem step_cancelled_sub (s : MonitorState) (e : Event) :
    s.cancelledUids ⊆ (step s e).cancelledUids := by
  cases e with
  | tick =>
    intro x hx
    simp only [step, tick_cancelledUids]
    exact hx
  | dispatch =>
    intro x hx
    simp only [step, dispatchOne_cancelledUids]
    exact hx
  | addTask taskId nodeId timeout =>
    intro x hx
    simp only [step, (addTaskMonitor_preserves s taskId nodeId timeout).1]
    exact hx
  | removeTask taskId =>
    exact (removeTaskMonitor_preserves s taskId).1
  | stopMonitor =>
    intro x hx
    simp only [step, (stop_preserves s).1]
    exact hx
  | startMonitor =>
    intro x hx
    simp only [step, (start_preserves s).1]
    exact hx

/-- Any task fired by a step either was already in the fired log or had
its cancelled flag unset before the step: every firing path re-checks
the flag (the cascade never fires at all). -/
theorem step_fired_sub (s : MonitorState) (e : Event) (u : TimeoutTask)
    (hu : u ∈ (step s e).fired) : u ∈ s.fired ∨ u.uid ∉ s.cancelledUids := by
  cases e with
  | tick => exact tick_fired_sub s u hu
  | dispatch => exact dispatchOne_fired_sub s u hu
  | addTask taskId nodeId timeout =>
    simp only [step] at hu
    rw [(addTaskMonitor_preserves s taskId nodeId timeout).2] at hu
    exact Or.inl hu
  | removeTask taskId =>
    simp only [step] at hu
    rw [(removeTaskMonitor_preserves s taskId).2] at hu
    exact Or.inl hu
  | stopMonitor =>
    simp only [step] at hu
    rw [(stop_preserves s).2] at hu
    exact Or.inl hu
  | startMonitor =>
    simp only [step] at hu
    rw [(start_preserves s).2] at hu
    exact Or.inl hu

/-- Once a record's cancelled flag is set, no run of the semantics ever
fires it again: every later entry of the fired log is an old one or has
a different record identity. -/
theorem run_no_new_fire (x : Nat) :
    ∀ (es : List Event) (s : MonitorState), x ∈ s.cancelledUids →
      ∀ u ∈ (run s es).fired, u ∈ s.fired ∨ u.uid ≠ x := by
  intro es
  induction es with
  | nil => intro s _ u hu; exact Or.inl hu
  | cons e es ih =>
    intro s hx u hu
    simp only [run] at hu
    rcases ih (step s e) (step_cancelled_sub s e hx) u hu with h | h
    · rcases step_fired_sub s e u h with h2 | h2
      · exact Or.inl h2
      · right
        intro hequid
        rw [hequid] at h2
        exact h2 hx
    · exact Or.inr h

/-- C4: for every task for which `remove` returned true before the
task's deadline, the callback is never invoked afterwards: after the
successful `remove`, no run of the semantics (drain, cascade, callback
workers, or further API calls, in any interleaving) adds that record to
the fired log, because every firing path re-checks the monotone
cancelled flag and the cascade drops cancelled tasks without firing. -/
theorem remove_prevents_fire (s : MonitorState) (taskId : String)
    (t : TimeoutTask)
    (hlook : s.taskRegistry.lookup taskId = some t)
    (_hdl : s.now < t.expireTime) :
    (removeTaskMonitor s taskId).1 = true ∧
    ∀ (es : List Event) (u : TimeoutTask),
      u ∈ (run (removeTaskMonitor s taskId).2 es).fired →
      u ∈ s.fired ∨ u.uid ≠ t.uid := by
  have h1 : removeTaskMonitor s taskId =
      (true, { s with
        taskRegistry := eraseTask s.taskRegistry taskId,
        cancelledUids := t.uid :: s.cancelledUids }) := by
    unfold removeTaskMonitor
    rw [hlook]
  constructor
  · rw [h1]
  · intro es u hu
    have hx : t.uid ∈ (removeTaskMonitor s taskId).2.cancelledUids := by
      rw [h1]
      exact List.mem_cons_self _ _
    rcases run_no_new_fire t.uid es _ hx u hu with h | h
    · rw [h1] at h
      exact Or.inl h
    · exact Or.inr h

/-- C4 witness: removing `"a"` (due at 300 ms) from `demoStateWithTask`
at time 0 returns true, and no later run fires that record. -/
theorem remove_prevents_fire_witness :
    demoStateWithTask.taskRegistry.lookup "a" = some demoTask ∧
    demoStateWithTask.now < demoTask.expireTime ∧
    ((removeTaskMonitor demoStateWithTask "a").1 = true ∧
      ∀ (es : List Event) (u : TimeoutTask),
        u ∈ (run (removeTaskMonitor demoStateWithTask "a").2 es).fired →
        u ∈ demoStateWithTask.fired ∨ u.uid ≠ demoTask.uid) := by
  refine ⟨by decide, by decide, ?_⟩
  exact remove_prevents_fire demoStateWithTask "a" demoTask (by decide) (by decide)

end TimeWheel
